import Mathlib

/-!
Verification of the clingo C API core (libgringo/clingo.h) against its
specification.  The header declares the data model (symbols, solve results,
show types, error codes) and the operations on them; behaviour that is not
determined by the header itself (the symbol ordering, the assignment state
machine, the iterator protocol, external-atom semantics) is modelled from the
specification, as marked on each such definition.
-/

namespace Clingo

/-- Error codes of the clingo API, from enum clingo_error in clingo.h
(success = 0, fatal = 1, runtime = 2, logic = 3, bad_alloc = 4, unknown = 5). -/
inductive ClingoError : Type where
  | success : ClingoError
  | fatal : ClingoError
  | runtime : ClingoError
  | logic : ClingoError
  | bad_alloc : ClingoError
  | unknown : ClingoError
deriving DecidableEq, Repr

/-- Numeric value of each error code, from enum clingo_error in clingo.h. -/
def clingo_error_code : ClingoError → Int
  | .success => 0
  | .fatal => 1
  | .runtime => 2
  | .logic => 3
  | .bad_alloc => 4
  | .unknown => 5

mutual

/-- Symbols of the clingo term language: the five variants of
enum clingo_symbol_type (infimum, number, string, function, supremum).
A function symbol carries a name, an ordered argument list and a sign flag,
matching clingo_symbol_new_fun in clingo.h. -/
inductive Sym : Type where
  | inf : Sym
  | num : Int → Sym
  | str : String → Sym
  | func : String → SymList → Bool → Sym
  | sup : Sym
deriving DecidableEq

/-- Argument lists of function symbols (clingo_symbol_span_t in clingo.h). -/
inductive SymList : Type where
  | nil : SymList
  | cons : Sym → SymList → SymList
deriving DecidableEq

end

/-- Length of an argument list: the arity of a function symbol. -/
def SymList.length : SymList → Nat
  | .nil => 0
  | .cons _ t => 1 + t.length

/-- Three-way comparison derived from a linear order
(lt if a < b, eq if a = b, gt otherwise). -/
def cmp3 {α : Type} [LinearOrder α] (a b : α) : Ordering :=
  if a < b then .lt else if a = b then .eq else .gt

mutual

/-- Modelled from the spec: three-way comparison realising the total order on
symbols whose implementation is not in the header: infimum < all integers (by
value) < all strings (lexicographic) < all functions (by arity, then name,
then arguments, then sign) < supremum. -/
def symCmp : Sym → Sym → Ordering
  | .inf, .inf => .eq
  | .inf, .num _ => .lt
  | .inf, .str _ => .lt
  | .inf, .func _ _ _ => .lt
  | .inf, .sup => .lt
  | .num _, .inf => .gt
  | .num m, .num n => cmp3 m n
  | .num _, .str _ => .lt
  | .num _, .func _ _ _ => .lt
  | .num _, .sup => .lt
  | .str _, .inf => .gt
  | .str _, .num _ => .gt
  | .str s, .str t => cmp3 s t
  | .str _, .func _ _ _ => .lt
  | .str _, .sup => .lt
  | .func _ _ _, .inf => .gt
  | .func _ _ _, .num _ => .gt
  | .func _ _ _, .str _ => .gt
  | .func n1 a1 s1, .func n2 a2 s2 =>
      (cmp3 a1.length a2.length).then
        ((cmp3 n1 n2).then ((symCmpList a1 a2).then (cmp3 s1 s2)))
  | .func _ _ _, .sup => .lt
  | .sup, .inf => .gt
  | .sup, .num _ => .gt
  | .sup, .str _ => .gt
  | .sup, .func _ _ _ => .gt
  | .sup, .sup => .eq

/-- Lexicographic comparison of argument lists, used by symCmp on function
symbols of equal arity. -/
def symCmpList : SymList → SymList → Ordering
  | .nil, .nil => .eq
  | .nil, .cons _ _ => .lt
  | .cons _ _, .nil => .gt
  | .cons x xs, .cons y ys => (symCmp x y).then (symCmpList xs ys)

end

theorem cmp3_refl {α : Type} [LinearOrder α] (a : α) : cmp3 a a = .eq := by
  simp [cmp3]

theorem cmp3_eq_iff {α : Type} [LinearOrder α] (a b : α) :
    cmp3 a b = .eq ↔ a = b := by
  unfold cmp3
  rcases lt_trichotomy a b with h | h | h
  · simp [h, ne_of_lt h]
  · simp [h]
  · simp [not_lt_of_gt h, ne_of_gt h]

theorem cmp3_swap {α : Type} [LinearOrder α] (a b : α) :
    (cmp3 a b).swap = cmp3 b a := by
  unfold cmp3
  rcases lt_trichotomy a b with h | h | h
  · simp [h, not_lt_of_gt h, ne_of_gt h, Ordering.swap]
  · simp [h, Ordering.swap]
  · simp [h, not_lt_of_gt h, ne_of_gt h, Ordering.swap]

theorem ordering_then_eq (x y : Ordering) :
    x.then y = .eq ↔ x = .eq ∧ y = .eq := by
  cases x <;> simp [Ordering.then]

theorem ordering_then_swap (x y : Ordering) :
    (x.then y).swap = x.swap.then y.swap := by
  cases x <;> cases y <;> rfl

mutual

theorem symCmp_refl : (a : Sym) → symCmp a a = Ordering.eq
  | .inf => rfl
  | .num n => by simp [symCmp, cmp3_refl]
  | .str s => by simp [symCmp, cmp3_refl]
  | .func nm args sg => by
      simp [symCmp, cmp3_refl, symCmpList_refl args, Ordering.then]
  | .sup => rfl

theorem symCmpList_refl : (l : SymList) → symCmpList l l = Ordering.eq
  | .nil => rfl
  | .cons x xs => by
      simp [symCmpList, symCmp_refl x, symCmpList_refl xs, Ordering.then]

end

mutual

theorem symCmp_eq : (a b : Sym) → symCmp a b = Ordering.eq → a = b
  | .inf, .inf, _ => rfl
  | .inf, .num _, h => by simp [symCmp] at h
  | .inf, .str _, h => by simp [symCmp] at h
  | .inf, .func _ _ _, h => by simp [symCmp] at h
  | .inf, .sup, h => by simp [symCmp] at h
  | .num _, .inf, h => by simp [symCmp] at h
  | .num m, .num n, h => by
      rw [symCmp, cmp3_eq_iff] at h
      rw [h]
  | .num _, .str _, h => by simp [symCmp] at h
  | .num _, .func _ _ _, h => by simp [symCmp] at h
  | .num _, .sup, h => by simp [symCmp] at h
  | .str _, .inf, h => by simp [symCmp] at h
  | .str _, .num _, h => by simp [symCmp] at h
  | .str s, .str t, h => by
      rw [symCmp, cmp3_eq_iff] at h
      rw [h]
  | .str _, .func _ _ _, h => by simp [symCmp] at h
  | .str _, .sup, h => by simp [symCmp] at h
  | .func _ _ _, .inf, h => by simp [symCmp] at h
  | .func _ _ _, .num _, h => by simp [symCmp] at h
  | .func _ _ _, .str _, h => by simp [symCmp] at h
  | .func n1 a1 s1, .func n2 a2 s2, h => by
      rw [symCmp, ordering_then_eq, ordering_then_eq, ordering_then_eq] at h
      obtain ⟨-, hn, hl, hs⟩ := h
      rw [cmp3_eq_iff] at hn hs
      rw [hn, hs, symCmpList_eq a1 a2 hl]
  | .func _ _ _, .sup, h => by simp [symCmp] at h
  | .sup, .inf, h => by simp [symCmp] at h
  | .sup, .num _, h => by simp [symCmp] at h
  | .sup, .str _, h => by simp [symCmp] at h
  | .sup, .func _ _ _, h => by simp [symCmp] at h
  | .sup, .sup, _ => rfl

theorem symCmpList_eq : (l1 l2 : SymList) → symCmpList l1 l2 = Ordering.eq → l1 = l2
  | .nil, .nil, _ => rfl
  | .nil, .cons _ _, h => by simp [symCmpList] at h
  | .cons _ _, .nil, h => by simp [symCmpList] at h
  | .cons x xs, .cons y ys, h => by
      rw [symCmpList, ordering_then_eq] at h
      rw [symCmp_eq x y h.1, symCmpList_eq xs ys h.2]

end

mutual

theorem symCmp_swap : (a b : Sym) → (symCmp a b).swap = symCmp b a
  | .inf, .inf => rfl
  | .inf, .num _ => rfl
  | .inf, .str _ => rfl
  | .inf, .func _ _ _ => rfl
  | .inf, .sup => rfl
  | .num _, .inf => rfl
  | .num m, .num n => by rw [symCmp, symCmp, cmp3_swap]
  | .num _, .str _ => rfl
  | .num _, .func _ _ _ => rfl
  | .num _, .sup => rfl
  | .str _, .inf => rfl
  | .str _, .num _ => rfl
  | .str s, .str t => by rw [symCmp, symCmp, cmp3_swap]
  | .str _, .func _ _ _ => rfl
  | .str _, .sup => rfl
  | .func _ _ _, .inf => rfl
  | .func _ _ _, .num _ => rfl
  | .func _ _ _, .str _ => rfl
  | .func n1 a1 s1, .func n2 a2 s2 => by
      rw [symCmp, symCmp, ordering_then_swap, ordering_then_swap,
        ordering_then_swap, cmp3_swap, cmp3_swap, cmp3_swap,
        symCmpList_swap a1 a2]
  | .func _ _ _, .sup => rfl
  | .sup, .inf => rfl
  | .sup, .num _ => rfl
  | .sup, .str _ => rfl
  | .sup, .func _ _ _ => rfl
  | .sup, .sup => rfl

theorem symCmpList_swap : (l1 l2 : SymList) → (symCmpList l1 l2).swap = symCmpList l2 l1
  | .nil, .nil => rfl
  | .nil, .cons _ _ => rfl
  | .cons _ _, .nil => rfl
  | .cons x xs, .cons y ys => by
      rw [symCmpList, symCmpList, ordering_then_swap, symCmp_swap x y,
        symCmpList_swap xs ys]

end

/-- clingo_symbol_eq from clingo.h: equality of symbols (the canonical 64-bit
representation gives O(1) equality, i.e. structural equality of the term). -/
def clingo_symbol_eq (a b : Sym) : Bool := a = b

/-- Modelled from the spec: clingo_symbol_lt, the strict total order on
symbols, whose implementation is not in the header; defined through symCmp. -/
def clingo_symbol_lt (a b : Sym) : Bool := symCmp a b = Ordering.lt

/-- Numeric variant tag of a symbol, from enum clingo_symbol_type in clingo.h
(inf = 0, num = 1, str = 4, fun = 5, sup = 7). -/
def clingo_symbol_type : Sym → Int
  | .inf => 0
  | .num _ => 1
  | .str _ => 4
  | .func _ _ _ => 5
  | .sup => 7

/-- Enum constant clingo_symbol_type_inf = 0 from clingo.h. -/
def clingo_symbol_type_inf : Int := 0

/-- Enum constant clingo_symbol_type_num = 1 from clingo.h. -/
def clingo_symbol_type_num : Int := 1

/-- Enum constant clingo_symbol_type_str = 4 from clingo.h. -/
def clingo_symbol_type_str : Int := 4

/-- Enum constant clingo_symbol_type_fun = 5 from clingo.h. -/
def clingo_symbol_type_fun : Int := 5

/-- Enum constant clingo_symbol_type_sup = 7 from clingo.h. -/
def clingo_symbol_type_sup : Int := 7

theorem symCmp_lt_iff_gt (a b : Sym) :
    symCmp a b = Ordering.lt ↔ symCmp b a = Ordering.gt := by
  rw [← symCmp_swap a b]
  cases symCmp a b <;> simp [Ordering.swap]

/-- C1: for all symbols a and b, clingo_symbol_eq a b holds iff neither
clingo_symbol_lt a b nor clingo_symbol_lt b a holds, and the variant order is
infimum < every integer < every string < every function < supremum. -/
theorem symbol_eq_iff_not_lt_and_total_order :
    (∀ a b : Sym, clingo_symbol_eq a b = true ↔
      (clingo_symbol_lt a b = false ∧ clingo_symbol_lt b a = false)) ∧
    (∀ (n : Int) (s nm : String) (args : SymList) (sg : Bool),
      clingo_symbol_lt .inf (.num n) = true ∧
      clingo_symbol_lt .inf (.str s) = true ∧
      clingo_symbol_lt .inf (.func nm args sg) = true ∧
      clingo_symbol_lt .inf .sup = true ∧
      clingo_symbol_lt (.num n) (.str s) = true ∧
      clingo_symbol_lt (.num n) (.func nm args sg) = true ∧
      clingo_symbol_lt (.num n) .sup = true ∧
      clingo_symbol_lt (.str s) (.func nm args sg) = true ∧
      clingo_symbol_lt (.str s) .sup = true ∧
      clingo_symbol_lt (.func nm args sg) .sup = true) := by
  constructor
  · intro a b
    simp only [clingo_symbol_eq, clingo_symbol_lt, decide_eq_true_eq,
      decide_eq_false_iff_not]
    constructor
    · rintro rfl
      rw [symCmp_refl a]
      simp
    · rintro ⟨h1, h2⟩
      apply symCmp_eq a b
      cases hc : symCmp a b with
      | lt => exact absurd hc h1
      | eq => rfl
      | gt => exact absurd ((symCmp_lt_iff_gt b a).mpr hc) h2
  · intro n s nm args sg
    refine ⟨?_, ?_, ?_, ?_, ?_, ?_, ?_, ?_, ?_, ?_⟩ <;>
      simp [clingo_symbol_lt, symCmp]

/-- C9: the numeric values of enum clingo_symbol_type are strictly increasing
along the variant order (inf = 0 < num = 1 < str = 4 < fun = 5 < sup = 7), and
for symbols of different variants clingo_symbol_lt agrees with comparison of
the numeric variant tags. -/
theorem symbol_type_values_order_lt :
    (clingo_symbol_type_inf < clingo_symbol_type_num ∧
     clingo_symbol_type_num < clingo_symbol_type_str ∧
     clingo_symbol_type_str < clingo_symbol_type_fun ∧
     clingo_symbol_type_fun < clingo_symbol_type_sup) ∧
    (∀ a : Sym, clingo_symbol_type a = clingo_symbol_type_inf ∨
      clingo_symbol_type a = clingo_symbol_type_num ∨
      clingo_symbol_type a = clingo_symbol_type_str ∨
      clingo_symbol_type a = clingo_symbol_type_fun ∨
      clingo_symbol_type a = clingo_symbol_type_sup) ∧
    (∀ a b : Sym, clingo_symbol_type a ≠ clingo_symbol_type b →
      (clingo_symbol_lt a b = true ↔ clingo_symbol_type a < clingo_symbol_type b)) := by
  refine ⟨by decide, ?_, ?_⟩
  · intro a
    cases a <;> simp [clingo_symbol_type, clingo_symbol_type_inf,
      clingo_symbol_type_num, clingo_symbol_type_str, clingo_symbol_type_fun,
      clingo_symbol_type_sup]
  · intro a b hne
    cases a <;> cases b <;>
      simp_all [clingo_symbol_type, clingo_symbol_lt, symCmp]

/-- Witness for C9 at concrete symbols: infimum versus the number 0. -/
theorem symbol_type_values_order_lt_witness :
    clingo_symbol_lt .inf (.num 0) = true ↔
      clingo_symbol_type .inf < clingo_symbol_type (.num 0) :=
  symbol_type_values_order_lt.2.2 .inf (.num 0) (by decide)

/-- True iff the symbol is of the number variant. -/
def Sym.isNum : Sym → Bool
  | .num _ => true
  | _ => false

/-- True iff the symbol is of the string variant. -/
def Sym.isStr : Sym → Bool
  | .str _ => true
  | _ => false

/-- True iff the symbol is of the function variant. -/
def Sym.isFun : Sym → Bool
  | .func _ _ _ => true
  | _ => false

/-- True iff an Except value is a success. -/
def isOkE {e a : Type} : Except e a → Bool
  | .ok _ => true
  | .error _ => false

/-- clingo_symbol_new_fun from clingo.h: construct a function symbol from a
name, an argument list and a sign flag. -/
def clingo_symbol_new_fun (nm : String) (args : SymList) (sg : Bool) : Sym :=
  .func nm args sg

/-- clingo_symbol_new_num from clingo.h: construct a number symbol. -/
def clingo_symbol_new_num (n : Int) : Sym := .num n

/-- clingo_symbol_new_str from clingo.h: construct a string symbol. -/
def clingo_symbol_new_str (s : String) : Sym := .str s

/-- Modelled from the spec: clingo_symbol_num, whose implementation is not in
the header; returns the numeric value of a number symbol and fails with a
logic (type-mismatch) error on any other variant. -/
def clingo_symbol_num : Sym → Except ClingoError Int
  | .num n => .ok n
  | _ => .error .logic

/-- Modelled from the spec: clingo_symbol_name, whose implementation is not in
the header; returns the name of a function symbol and fails with a logic
(type-mismatch) error on any other variant. -/
def clingo_symbol_name : Sym → Except ClingoError String
  | .func nm _ _ => .ok nm
  | _ => .error .logic

/-- Modelled from the spec: clingo_symbol_string, whose implementation is not
in the header; returns the value of a string symbol and fails with a logic
(type-mismatch) error on any other variant. -/
def clingo_symbol_string : Sym → Except ClingoError String
  | .str s => .ok s
  | _ => .error .logic

/-- Modelled from the spec: clingo_symbol_sign, whose implementation is not in
the header; returns the sign flag of a function symbol and fails with a logic
(type-mismatch) error on any other variant. -/
def clingo_symbol_sign : Sym → Except ClingoError Bool
  | .func _ _ sg => .ok sg
  | _ => .error .logic

/-- Modelled from the spec: clingo_symbol_args, whose implementation is not in
the header; returns the argument list of a function symbol and fails with a
logic (type-mismatch) error on any other variant. -/
def clingo_symbol_args : Sym → Except ClingoError SymList
  | .func _ args _ => .ok args
  | _ => .error .logic

/-- C7: each symbol inspection operation succeeds exactly on the variant that
supports it and fails with the logic (type-mismatch) error on every other
variant. -/
theorem symbol_inspection_variant_errors (sym : Sym) :
    (isOkE (clingo_symbol_num sym) = true ↔ sym.isNum = true) ∧
    (clingo_symbol_num sym = .error .logic ↔ sym.isNum = false) ∧
    (isOkE (clingo_symbol_string sym) = true ↔ sym.isStr = true) ∧
    (clingo_symbol_string sym = .error .logic ↔ sym.isStr = false) ∧
    (isOkE (clingo_symbol_name sym) = true ↔ sym.isFun = true) ∧
    (clingo_symbol_name sym = .error .logic ↔ sym.isFun = false) ∧
    (isOkE (clingo_symbol_args sym) = true ↔ sym.isFun = true) ∧
    (clingo_symbol_args sym = .error .logic ↔ sym.isFun = false) ∧
    (isOkE (clingo_symbol_sign sym) = true ↔ sym.isFun = true) ∧
    (clingo_symbol_sign sym = .error .logic ↔ sym.isFun = false) := by
  cases sym <;>
    simp [clingo_symbol_num, clingo_symbol_string, clingo_symbol_name,
      clingo_symbol_args, clingo_symbol_sign, Sym.isNum, Sym.isStr, Sym.isFun,
      isOkE]

/-- C8: reading back name, argument list and sign of a function symbol built
by clingo_symbol_new_fun reproduces exactly the construction inputs. -/
theorem symbol_new_fun_round_trip (nm : String) (args : SymList) (sg : Bool) :
    clingo_symbol_name (clingo_symbol_new_fun nm args sg) = .ok nm ∧
    clingo_symbol_args (clingo_symbol_new_fun nm args sg) = .ok args ∧
    clingo_symbol_sign (clingo_symbol_new_fun nm args sg) = .ok sg :=
  ⟨rfl, rfl, rfl⟩

/-- Truth values of enum clingo_truth_value in clingo.h
(free = 0, true = 1, false = 2). -/
inductive TruthVal : Type where
  | free : TruthVal
  | tv_true : TruthVal
  | tv_false : TruthVal
deriving DecidableEq, Repr

/-- Numeric value of each truth value, from enum clingo_truth_value. -/
def clingo_truth_value_code : TruthVal → Int
  | .free => 0
  | .tv_true => 1
  | .tv_false => 2

/-- Modelled from the spec: the assignment component behind
clingo_assignment_t, whose implementation is not in the header — a mapping
from literals (signed integers, negation is value negation) to truth values,
plus a conflict flag. -/
structure AssignState : Type where
  val : Int → TruthVal
  conflict : Bool

/-- The initial assignment: every literal free, no conflict. -/
def initAssign : AssignState := ⟨fun _ => .free, false⟩

/-- clingo_assignment_has_conflict from clingo.h, modelled from the spec:
reports the conflict flag of the assignment. -/
def clingo_assignment_has_conflict (s : AssignState) : Bool := s.conflict

/-- Modelled from the spec: propagation derives literal l true.  If the
negation of l is already true the conflict flag is set (the conflict
condition has been derived); otherwise l becomes true and its negation
false. -/
def assignLit (s : AssignState) (l : Int) : AssignState :=
  if s.val (-l) = .tv_true then { s with conflict := true }
  else { s with val := fun x => if x = l then .tv_true else if x = -l then .tv_false else s.val x }

/-- Modelled from the spec: backtracking unassigns literal l (and its
negation) and resolves any conflict. -/
def undoLit (s : AssignState) (l : Int) : AssignState :=
  { val := fun x => if x = l ∨ x = -l then .free else s.val x
    conflict := false }

/-- Modelled from the spec: the assignment states reachable from the initial
assignment by propagation steps (on valid, i.e. nonzero, literals) and
backtracking steps. -/
inductive Reachable : AssignState → Prop where
  | init : Reachable initAssign
  | assign (s : AssignState) (l : Int) (hl : l ≠ 0) :
      Reachable s → Reachable (assignLit s l)
  | undo (s : AssignState) (l : Int) : Reachable s → Reachable (undoLit s l)

/-- C2: in every reachable assignment state no literal and its negation are
simultaneously true, and the conflict flag reported by
clingo_assignment_has_conflict is set exactly when a propagation step derived
a literal whose negation was already true (and is clear initially and after
backtracking). -/
theorem assignment_no_conflicting_literals :
    (∀ s : AssignState, Reachable s →
      ∀ l : Int, ¬(s.val l = .tv_true ∧ s.val (-l) = .tv_true)) ∧
    (∀ (s : AssignState) (l : Int),
      clingo_assignment_has_conflict (assignLit s l) =
        (clingo_assignment_has_conflict s || (s.val (-l) = .tv_true))) ∧
    (clingo_assignment_has_conflict initAssign = false) ∧
    (∀ (s : AssignState) (l : Int),
      clingo_assignment_has_conflict (undoLit s l) = false) := by
  refine ⟨?_, ?_, rfl, fun s l => rfl⟩
  · intro s hs
    induction hs with
    | init =>
        intro l
        simp [initAssign]
    | assign s l hl _ ih =>
        intro m
        unfold assignLit
        split
        · exact ih m
        · rintro ⟨h1, h2⟩
          simp only at h1 h2
          by_cases hml : m = l
          · subst hml
            have hne : -m ≠ m := by omega
            simp [hne] at h2
          · by_cases hmn : m = -l
            · subst hmn
              have hne : -l ≠ l := by omega
              simp [hne] at h1
            · have hn1 : -m ≠ l := by omega
              have hn2 : -m ≠ -l := by omega
              simp [hml, hmn, hn1, hn2] at h1 h2
              exact ih m ⟨h1, h2⟩
    | undo s l _ ih =>
        intro m
        unfold undoLit
        rintro ⟨h1, h2⟩
        simp only at h1 h2
        by_cases hm : m = l ∨ m = -l
        · simp [hm] at h1
        · push_neg at hm
          obtain ⟨hm1, hm2⟩ := hm
          have hn1 : -m ≠ l := by omega
          have hn2 : -m ≠ -l := by omega
          simp [hm1, hm2, hn1, hn2] at h1 h2
          exact ih m ⟨h1, h2⟩
  · intro s l
    unfold assignLit clingo_assignment_has_conflict
    split <;> simp_all

/-- Witness for C2 at a concrete reachable state: after deriving literal 1
true from the initial assignment, literal 1 and its negation are not both
true. -/
theorem assignment_no_conflicting_literals_witness :
    ¬((assignLit initAssign 1).val 1 = .tv_true ∧
      (assignLit initAssign 1).val (-1) = .tv_true) :=
  assignment_no_conflicting_literals.1 (assignLit initAssign 1)
    (Reachable.assign initAssign 1 (by decide) Reachable.init) 1

/-- Enum constant clingo_solve_result_sat = 1 from clingo.h. -/
def clingo_solve_result_sat : Nat := 1

/-- Enum constant clingo_solve_result_unsat = 2 from clingo.h. -/
def clingo_solve_result_unsat : Nat := 2

/-- Enum constant clingo_solve_result_exhausted = 4 from clingo.h. -/
def clingo_solve_result_exhausted : Nat := 4

/-- Enum constant clingo_solve_result_interrupted = 8 from clingo.h. -/
def clingo_solve_result_interrupted : Nat := 8

/-- How a search run ended: the declared search space was fully certified
(exhausted), external cancellation truncated the search (interrupted), or the
model handler stopped the search cooperatively (stopped). -/
inductive SearchEnd : Type where
  | exhausted : SearchEnd
  | interrupted : SearchEnd
  | stopped : SearchEnd
deriving DecidableEq, Repr

/-- Modelled from the spec: the solve result bitmask produced by
clingo_control_solve and clingo_solve_iter_get, whose implementation is not
in the header.  Given the number of models reported before the run ended and
how it ended: sat is set iff a model was found, unsat iff the run certified
that no model exists, exhausted iff the search space was fully certified,
interrupted iff external cancellation truncated the search. -/
def solveResultMask (reported : Nat) (e : SearchEnd) : Nat :=
  (if 0 < reported then clingo_solve_result_sat else 0) |||
  (if reported = 0 ∧ e = SearchEnd.exhausted then clingo_solve_result_unsat else 0) |||
  (if e = SearchEnd.exhausted then clingo_solve_result_exhausted else 0) |||
  (if e = SearchEnd.interrupted then clingo_solve_result_interrupted else 0)

/-- C3: a solve result bitmask never has both the sat and unsat bits set,
never has both the exhausted and interrupted bits set, and when both unsat
and exhausted are set the program has no model at all under the current rules
and assumptions.  Here total is the number of models of the ground program
under the current assumptions; an exhausted run certified the whole search
space, so it reported all of them. -/
theorem solve_result_bitmask_exclusive (total reported : Nat) (e : SearchEnd)
    (hle : reported ≤ total)
    (hexh : e = SearchEnd.exhausted → reported = total) :
    ¬(solveResultMask reported e &&& clingo_solve_result_sat ≠ 0 ∧
      solveResultMask reported e &&& clingo_solve_result_unsat ≠ 0) ∧
    ¬(solveResultMask reported e &&& clingo_solve_result_exhausted ≠ 0 ∧
      solveResultMask reported e &&& clingo_solve_result_interrupted ≠ 0) ∧
    ((solveResultMask reported e &&& clingo_solve_result_unsat ≠ 0 ∧
      solveResultMask reported e &&& clingo_solve_result_exhausted ≠ 0) →
      total = 0) := by
  rcases e with _ | _ | _ <;> by_cases hr : reported = 0
  · subst hr
    exact ⟨by decide, by decide, fun _ => (hexh rfl).symm⟩
  · have hpos : 0 < reported := Nat.pos_of_ne_zero hr
    have hmask : solveResultMask reported .exhausted = 5 := by
      simp [solveResultMask, clingo_solve_result_sat, clingo_solve_result_unsat,
        clingo_solve_result_exhausted, clingo_solve_result_interrupted, hpos, hr]
    rw [hmask]
    exact ⟨by decide, by decide, fun h => absurd (by decide) h.1⟩
  · subst hr
    exact ⟨by decide, by decide, fun h => absurd (by decide) h.1⟩
  · have hpos : 0 < reported := Nat.pos_of_ne_zero hr
    have hmask : solveResultMask reported .interrupted = 9 := by
      simp [solveResultMask, clingo_solve_result_sat, clingo_solve_result_unsat,
        clingo_solve_result_exhausted, clingo_solve_result_interrupted, hpos, hr]
    rw [hmask]
    exact ⟨by decide, by decide, fun h => absurd (by decide) h.1⟩
  · subst hr
    exact ⟨by decide, by decide, fun h => absurd (by decide) h.1⟩
  · have hpos : 0 < reported := Nat.pos_of_ne_zero hr
    have hmask : solveResultMask reported .stopped = 1 := by
      simp [solveResultMask, clingo_solve_result_sat, clingo_solve_result_unsat,
        clingo_solve_result_exhausted, clingo_solve_result_interrupted, hpos, hr]
    rw [hmask]
    exact ⟨by decide, by decide, fun h => absurd (by decide) h.1⟩

/-- Witness for C3 at a concrete run: no models exist, the search space was
fully certified. -/
theorem solve_result_bitmask_exclusive_witness :
    ¬(solveResultMask 0 .exhausted &&& clingo_solve_result_exhausted ≠ 0 ∧
      solveResultMask 0 .exhausted &&& clingo_solve_result_interrupted ≠ 0) :=
  (solve_result_bitmask_exclusive 0 0 .exhausted (by decide)
    (fun _ => rfl)).2.1

/-- Modelled from the spec: the externally visible assignment state of one
externally controlled atom inside a Control object — an optional explicit
truth value set by clingo_control_assign_external, and whether
clingo_control_release_external has handed the atom back to the rules. -/
structure ExtState : Type where
  assignedVal : Option Bool
  released : Bool

/-- The state of an external atom before any explicit assignment. -/
def initExt : ExtState := ⟨none, false⟩

/-- The default truth value of an externally controlled atom absent any
explicit assignment: false. -/
def externalDefault : Bool := false

/-- Modelled from the spec: clingo_control_assign_external, whose
implementation is not in the header; sets a permanent, solve-call-independent
truth value for the externally controlled atom. -/
def clingo_control_assign_external (_ : ExtState) (v : Bool) : ExtState :=
  ⟨some v, false⟩

/-- Modelled from the spec: clingo_control_release_external, whose
implementation is not in the header; clears the explicit truth value so that
the atom's truth again depends solely on the ground rules. -/
def clingo_control_release_external (_ : ExtState) : ExtState :=
  ⟨none, true⟩

/-- Modelled from the spec: the truth of the externally controlled atom in
any model of a subsequent solve.  While the atom is externally controlled its
truth is the explicitly assigned value, defaulting to false; once released it
is the value derived solely from the ground rules (ruleVal, itself false if
the rules leave the atom undefined). -/
def truthInModel (s : ExtState) (ruleVal : Bool) : Bool :=
  if s.released then ruleVal else s.assignedVal.getD externalDefault

/-- C4: absent any explicit assignment an externally controlled atom is false
in every model; after clingo_control_assign_external with true the atom is
true in every model of a subsequent solve; after
clingo_control_release_external its truth reverts to depending solely on the
ground rules, not to an undefined state. -/
theorem external_assign_release_semantics (s : ExtState) (ruleVal : Bool) :
    truthInModel initExt ruleVal = false ∧
    truthInModel (clingo_control_assign_external s true) ruleVal = true ∧
    truthInModel (clingo_control_release_external s) ruleVal = ruleVal :=
  ⟨rfl, rfl, rfl⟩

/-- The control operations declared in clingo.h that can fail
(clingo_control_new through clingo_control_register_propagator). -/
inductive ControlOp : Type where
  | new_op : ControlOp
  | add : ControlOp
  | ground : ControlOp
  | solve : ControlOp
  | solve_iter : ControlOp
  | assign_external : ControlOp
  | release_external : ControlOp
  | parse : ControlOp
  | add_ast : ControlOp
  | register_propagator : ControlOp
deriving DecidableEq, Repr

/-- Modelled from the spec (and the note at the top of clingo.h): whether a
failure of the operation forces the Control object to be destroyed and
reconstructed.  Every failing control function invalidates its Control,
except clingo_control_parse, which leaves it valid. -/
def invalidatesOnFailure : ControlOp → Bool
  | .new_op => true
  | .add => true
  | .ground => true
  | .solve => true
  | .solve_iter => true
  | .assign_external => true
  | .release_external => true
  | .parse => false
  | .add_ast => true
  | .register_propagator => true

/-- C5: a failing control operation invalidates its Control object for every
operation except clingo_control_parse, which is the unique operation leaving
the Control valid on failure. -/
theorem control_failure_invalidates_except_parse :
    ∀ op : ControlOp, invalidatesOnFailure op = false ↔ op = ControlOp.parse := by
  intro op
  cases op <;> simp [invalidatesOnFailure]

/-- States of the solve iterator protocol (clingo_solve_iter_t), from the
spec's state machine: Created, Running, Paused, Exhausted, Interrupted,
Error, Closed. -/
inductive IterState : Type where
  | created : IterState
  | running : IterState
  | paused : IterState
  | exhausted : IterState
  | interrupted : IterState
  | error_state : IterState
  | closed : IterState
deriving DecidableEq, Repr

/-- Modelled from the spec: the error behaviour of clingo_solve_iter_next,
whose implementation is not in the header; advancing is valid only from the
Created and Paused states and fails with a logic error from any other state,
in particular once the model sequence has ended (Exhausted or Interrupted) or
the iterator is Closed. -/
def clingo_solve_iter_next (s : IterState) : Except ClingoError Unit :=
  if s = .created ∨ s = .paused then .ok () else .error .logic

/-- Modelled from the spec: clingo_solve_iter_close, whose implementation is
not in the header; from any state it releases the iterator's resources and
transitions to Closed, never failing (a no-op if already Closed). -/
def clingo_solve_iter_close (_ : IterState) : Except ClingoError IterState :=
  .ok .closed

/-- C6: clingo_solve_iter_next fails with a logic error once the model
sequence has ended (Exhausted or Interrupted) or the iterator is Closed,
while clingo_solve_iter_close succeeds from every state (hence may be called
any number of times, including before first use or after an error). -/
theorem solve_iter_next_close_protocol :
    (∀ s : IterState,
      (s = .exhausted ∨ s = .interrupted ∨ s = .closed) →
      clingo_solve_iter_next s = .error .logic) ∧
    (∀ s : IterState, clingo_solve_iter_close s = .ok .closed) := by
  constructor
  · rintro s (rfl | rfl | rfl) <;> rfl
  · intro s
    rfl

/-- Witness for C6 at a concrete state: advancing a Closed iterator fails
with a logic error. -/
theorem solve_iter_next_close_protocol_witness :
    clingo_solve_iter_next .closed = .error .logic :=
  solve_iter_next_close_protocol.1 .closed (Or.inr (Or.inr rfl))

/-- Enum constant clingo_show_type_csp = 1 from clingo.h. -/
def clingo_show_type_csp : Nat := 1

/-- Enum constant clingo_show_type_shown = 2 from clingo.h. -/
def clingo_show_type_shown : Nat := 2

/-- Enum constant clingo_show_type_atoms = 4 from clingo.h. -/
def clingo_show_type_atoms : Nat := 4

/-- Enum constant clingo_show_type_terms = 8 from clingo.h. -/
def clingo_show_type_terms : Nat := 8

/-- Enum constant clingo_show_type_comp = 16 from clingo.h. -/
def clingo_show_type_comp : Nat := 16

/-- Enum constant clingo_show_type_all = 15 from clingo.h. -/
def clingo_show_type_all : Nat := 15

/-- Modelled from the spec: whether a show-type bitmask passed to
clingo_model_atoms selects the atom category of the given bit (models are
filterable by a show-type bitmask). -/
def showTypeSelects (mask bit : Nat) : Bool := mask &&& bit ≠ 0

/-- C10: clingo_show_type_all equals 15, the bitwise OR of csp, shown, atoms
and terms, it does not include the complement bit clingo_show_type_comp = 16,
and hence a clingo_model_atoms request with the all mask never selects the
complement projection while selecting each of the four ordinary categories. -/
theorem show_type_all_excludes_comp :
    clingo_show_type_all = 15 ∧
    clingo_show_type_all =
      (clingo_show_type_csp ||| clingo_show_type_shown |||
       clingo_show_type_atoms ||| clingo_show_type_terms) ∧
    clingo_show_type_all &&& clingo_show_type_comp = 0 ∧
    showTypeSelects clingo_show_type_all clingo_show_type_comp = false ∧
    showTypeSelects clingo_show_type_all clingo_show_type_csp = true ∧
    showTypeSelects clingo_show_type_all clingo_show_type_shown = true ∧
    showTypeSelects clingo_show_type_all clingo_show_type_atoms = true ∧
    showTypeSelects clingo_show_type_all clingo_show_type_terms = true := by
  decide

end Clingo
